import Mathlib

/-!
Verification of the hourly temperature interpolation engine of
`src/analysis/stations/interpolate_hourly_temperatures_for_stations.py`.

Shallow embedding conventions:
* Python `datetime` values are modelled as integer timestamps counting
  microseconds of local civil time from an arbitrary midnight epoch
  (`datetime` has exactly microsecond resolution); `timedelta(hours=1)` is
  `3600000000`, `timedelta(days=1)` is `86400000000`.  `dt.date()` is the
  floor division of the timestamp by a day, `dt.hour` its hour-of-day; `/`
  on `ℤ` is floor division for these positive divisors, matching Python.
* Temperatures are real numbers; `np.sin`/`np.cos` are `Real.sin`/`Real.cos`.
  `(a − b).total_seconds()` divides microseconds by `10^6`, which cancels in
  every ratio of two such differences, so phase fractions are ratios of
  microsecond differences.
* A Python float division raises `ZeroDivisionError` when the denominator is
  zero, so the per-instant temperature computation returns `Except Unit ℝ`
  and the whole interpolation returns `Except Unit (List ℝ)`.
* The `while current_dt < next_day_sunrise_dt` loop advancing by one hour
  from `prev_day_t_peak_dt` runs exactly
  `⌈(next_day_sunrise_dt - prev_day_t_peak_dt) / hour⌉` iterations (zero when
  that is negative); the loop is rendered as structural recursion on that
  iteration count, `num_steps`.
-/

namespace ItIsHotNow

/-- Microseconds in one hour (`timedelta(hours=1)`). -/
def usPerHour : ℤ := 3600000000

/-- Microseconds in one day (`timedelta(days=1)`). -/
def usPerDay : ℤ := 86400000000

/-- `dt.date()` of a timestamp: the calendar day containing it. -/
def dateOf (t : ℤ) : ℤ := t / usPerDay

/-- `dt.hour` of a timestamp: its hour-of-day, in `[0, 24)`. -/
def hourOf (t : ℤ) : ℤ := t / usPerHour - 24 * (t / usPerDay)

/-- `HOURS_AFTER_NOON = 2` — time after noon when the peak temperature is
expected (module-level constant of the source file). -/
def HOURS_AFTER_NOON : ℤ := 2

/-- The temperature the loop body of `interpolate_hourly_temperatures`
computes for the instant `current_dt`, lines 117–133 of the source.
`prev_day_max_temp`/`next_day_min_temp` are the values after the `None`
fallbacks of lines 101–106.  A zero phase duration makes the Python float
division raise `ZeroDivisionError`, modelled as `.error ()`. -/
noncomputable def temp_at_exc (min_temp max_temp : ℝ) (sunrise_dt noon_dt : ℤ)
    (prev_day_max_temp next_day_min_temp : ℝ) (current_dt : ℤ) :
    Except Unit ℝ :=
  let t_peak_dt : ℤ := noon_dt + HOURS_AFTER_NOON * usPerHour
  let prev_day_t_peak_dt : ℤ := t_peak_dt - usPerDay
  let next_day_sunrise_dt : ℤ := sunrise_dt + usPerDay
  if current_dt < sunrise_dt then
    -- Early morning cooling phase (previous day's peak to today's sunrise)
    if sunrise_dt - prev_day_t_peak_dt = 0 then .error () else
    .ok (prev_day_max_temp - (prev_day_max_temp - min_temp) *
      (1 - Real.cos (Real.pi *
        (((current_dt - prev_day_t_peak_dt : ℤ) : ℝ) /
         ((sunrise_dt - prev_day_t_peak_dt : ℤ) : ℝ)))) / 2)
  else if current_dt ≤ t_peak_dt then
    -- Warming phase (today's sunrise to today's peak)
    if t_peak_dt - sunrise_dt = 0 then .error () else
    .ok (min_temp + (max_temp - min_temp) *
      Real.sin (Real.pi / 2 *
        (((current_dt - sunrise_dt : ℤ) : ℝ) /
         ((t_peak_dt - sunrise_dt : ℤ) : ℝ))))
  else
    -- Evening cooling phase (today's peak to tomorrow's sunrise)
    if next_day_sunrise_dt - t_peak_dt = 0 then .error () else
    .ok (max_temp - (max_temp - next_day_min_temp) *
      (1 - Real.cos (Real.pi *
        (((current_dt - t_peak_dt : ℤ) : ℝ) /
         ((next_day_sunrise_dt - t_peak_dt : ℤ) : ℝ)))) / 2)

/-- Total companion of `temp_at_exc` (division totalised as in Lean); equal
to it whenever the two phase denominators are nonzero, see
`temp_at_exc_eq_ok`. -/
noncomputable def temp_at (min_temp max_temp : ℝ) (sunrise_dt noon_dt : ℤ)
    (prev_day_max_temp next_day_min_temp : ℝ) (current_dt : ℤ) : ℝ :=
  let t_peak_dt : ℤ := noon_dt + HOURS_AFTER_NOON * usPerHour
  let prev_day_t_peak_dt : ℤ := t_peak_dt - usPerDay
  let next_day_sunrise_dt : ℤ := sunrise_dt + usPerDay
  if current_dt < sunrise_dt then
    prev_day_max_temp - (prev_day_max_temp - min_temp) *
      (1 - Real.cos (Real.pi *
        (((current_dt - prev_day_t_peak_dt : ℤ) : ℝ) /
         ((sunrise_dt - prev_day_t_peak_dt : ℤ) : ℝ)))) / 2
  else if current_dt ≤ t_peak_dt then
    min_temp + (max_temp - min_temp) *
      Real.sin (Real.pi / 2 *
        (((current_dt - sunrise_dt : ℤ) : ℝ) /
         ((t_peak_dt - sunrise_dt : ℤ) : ℝ)))
  else
    max_temp - (max_temp - next_day_min_temp) *
      (1 - Real.cos (Real.pi *
        (((current_dt - t_peak_dt : ℤ) : ℝ) /
         ((next_day_sunrise_dt - t_peak_dt : ℤ) : ℝ)))) / 2

/-- Number of iterations of the `while current_dt < next_day_sunrise_dt`
loop: the loop starts at `prev_day_t_peak_dt` and advances by one hour, so it
runs for the ceiling of the window length in hours (and not at all when the
window is empty). -/
def num_steps (sunrise_dt noon_dt : ℤ) : ℕ :=
  ((sunrise_dt + usPerDay) - (noon_dt + HOURS_AFTER_NOON * usPerHour - usPerDay)
    + (usPerHour - 1)).toNat / 3600000000

/-- The `while` loop of lines 115–140: `k` iterations remain, `current_dt` is
the instant about to be processed, `hourly_temps` is the dictionary built so
far (a Python dict keyed by `current_dt.hour`).  An exception from the loop
body propagates out, aborting the loop. -/
noncomputable def interp_loop (min_temp max_temp : ℝ) (sunrise_dt noon_dt : ℤ)
    (prev_day_max_temp next_day_min_temp : ℝ) (base_date : ℤ) :
    ℕ → ℤ → (ℤ → Option ℝ) → Except Unit (ℤ → Option ℝ)
  | 0, _, hourly_temps => .ok hourly_temps
  | k + 1, current_dt, hourly_temps =>
    match temp_at_exc min_temp max_temp sunrise_dt noon_dt
        prev_day_max_temp next_day_min_temp current_dt with
    | .error e => .error e
    | .ok temp =>
      interp_loop min_temp max_temp sunrise_dt noon_dt
        prev_day_max_temp next_day_min_temp base_date k (current_dt + usPerHour)
        (if dateOf current_dt = base_date then
          Function.update hourly_temps (hourOf current_dt) (some temp)
        else hourly_temps)

/-- Pure companion of `interp_loop`, recording the same dictionary without
the exception channel; equal to it when no phase denominator is zero
(`interp_loop_eq_pure`). -/
noncomputable def interp_loop_pure (min_temp max_temp : ℝ) (sunrise_dt noon_dt : ℤ)
    (prev_day_max_temp next_day_min_temp : ℝ) (base_date : ℤ) :
    ℕ → ℤ → (ℤ → Option ℝ) → (ℤ → Option ℝ)
  | 0, _, hourly_temps => hourly_temps
  | k + 1, current_dt, hourly_temps =>
    interp_loop_pure min_temp max_temp sunrise_dt noon_dt
      prev_day_max_temp next_day_min_temp base_date k (current_dt + usPerHour)
      (if dateOf current_dt = base_date then
        Function.update hourly_temps (hourOf current_dt)
          (some (temp_at min_temp max_temp sunrise_dt noon_dt
            prev_day_max_temp next_day_min_temp current_dt))
      else hourly_temps)

/-- `interpolate_hourly_temperatures` (lines 75–148 of the source).
Returns the per-day list built at lines 143–147: the dictionary values for
the hours `0, …, 23` that are present, in increasing hour order. -/
noncomputable def interpolate_hourly_temperatures (min_temp max_temp : ℝ)
    (sunrise_dt noon_dt : ℤ)
    (prev_day_max_temp next_day_min_temp : Option ℝ) :
    Except Unit (List ℝ) :=
  let base_date := dateOf noon_dt
  let t_peak_dt : ℤ := noon_dt + HOURS_AFTER_NOON * usPerHour
  let prev_day_t_peak_dt : ℤ := t_peak_dt - usPerDay
  -- If previous day's max temp is not provided, use current day's max;
  -- if next day's min temp is not provided, use current day's min.
  let pm := prev_day_max_temp.getD max_temp
  let nm := next_day_min_temp.getD min_temp
  match interp_loop min_temp max_temp sunrise_dt noon_dt pm nm base_date
      (num_steps sunrise_dt noon_dt) prev_day_t_peak_dt (fun _ => none) with
  | .error e => .error e
  | .ok hourly_temps =>
    .ok ((List.range 24).filterMap (fun (hour : ℕ) => hourly_temps (hour : ℤ)))

/-- The `hourly_temps` dictionary as it stands after the loop, assuming no
`ZeroDivisionError` was raised (pure rendering). -/
noncomputable def hourly_temps_dict (min_temp max_temp : ℝ)
    (sunrise_dt noon_dt : ℤ) (prev_day_max_temp next_day_min_temp : ℝ) :
    ℤ → Option ℝ :=
  interp_loop_pure min_temp max_temp sunrise_dt noon_dt
    prev_day_max_temp next_day_min_temp (dateOf noon_dt)
    (num_steps sunrise_dt noon_dt)
    (noon_dt + HOURS_AFTER_NOON * usPerHour - usPerDay) (fun _ => none)

/-- The loop visits hour `h` of the base date: some iteration's instant falls
on that calendar day at that hour.  Boolean, so concrete inputs evaluate by
`decide`; `hourVisited_iff` relates it to the loop. -/
def hourVisited (sunrise_dt noon_dt : ℤ) (h : ℤ) : Bool :=
  (List.range (num_steps sunrise_dt noon_dt)).any (fun k =>
    decide (dateOf ((noon_dt + HOURS_AFTER_NOON * usPerHour - usPerDay)
        + usPerHour * k) = dateOf noon_dt ∧
      hourOf ((noon_dt + HOURS_AFTER_NOON * usPerHour - usPerDay)
        + usPerHour * k) = h))

theorem hourVisited_iff (s noon : ℤ) (h : ℤ) :
    hourVisited s noon h = true ↔
      ∃ k < num_steps s noon,
        dateOf ((noon + HOURS_AFTER_NOON * usPerHour - usPerDay) + usPerHour * k)
          = dateOf noon ∧
        hourOf ((noon + HOURS_AFTER_NOON * usPerHour - usPerDay) + usPerHour * k)
          = h := by
  simp [hourVisited, List.any_eq_true, List.mem_range]

/-! ### Loop infrastructure lemmas -/

theorem num_steps_lt_iff (s noon : ℤ) (k : ℕ) :
    k < num_steps s noon ↔
      (noon + HOURS_AFTER_NOON * usPerHour - usPerDay) + usPerHour * k
        < s + usPerDay := by
  simp only [num_steps, usPerHour, usPerDay, HOURS_AFTER_NOON]
  omega

theorem temp_at_exc_eq_ok (m M : ℝ) (s noon : ℤ) (pm nm : ℝ) (t : ℤ)
    (hA : s - (noon + HOURS_AFTER_NOON * usPerHour - usPerDay) ≠ 0)
    (hB : (noon + HOURS_AFTER_NOON * usPerHour) - s ≠ 0) :
    temp_at_exc m M s noon pm nm t = .ok (temp_at m M s noon pm nm t) := by
  have hC : (s + usPerDay) - (noon + HOURS_AFTER_NOON * usPerHour) ≠ 0 := by
    simp only [usPerDay, usPerHour, HOURS_AFTER_NOON] at hA ⊢
    omega
  simp only [temp_at_exc, temp_at]
  split_ifs <;> rfl

theorem interp_loop_eq_pure (m M : ℝ) (s noon : ℤ) (pm nm : ℝ) (base : ℤ)
    (hA : s - (noon + HOURS_AFTER_NOON * usPerHour - usPerDay) ≠ 0)
    (hB : (noon + HOURS_AFTER_NOON * usPerHour) - s ≠ 0) :
    ∀ (k : ℕ) (t : ℤ) (d : ℤ → Option ℝ),
      interp_loop m M s noon pm nm base k t d =
        .ok (interp_loop_pure m M s noon pm nm base k t d) := by
  intro k
  induction k with
  | zero => intro t d; rfl
  | succ k ih =>
    intro t d
    rw [interp_loop, interp_loop_pure, temp_at_exc_eq_ok m M s noon pm nm t hA hB]
    exact ih (t + usPerHour) _

theorem interp_loop_pure_isSome_mono (m M : ℝ) (s noon : ℤ) (pm nm : ℝ)
    (base : ℤ) :
    ∀ (k : ℕ) (t : ℤ) (d : ℤ → Option ℝ) (h : ℤ),
      (d h).isSome = true →
      ((interp_loop_pure m M s noon pm nm base k t d) h).isSome = true := by
  intro k
  induction k with
  | zero => intro t d h hd; exact hd
  | succ k ih =>
    intro t d h hd
    rw [interp_loop_pure]
    apply ih
    split_ifs with hdate
    · rw [Function.update_apply]
      split_ifs with hh
      · rfl
      · exact hd
    · exact hd

theorem interp_loop_pure_isSome (m M : ℝ) (s noon : ℤ) (pm nm : ℝ)
    (base : ℤ) :
    ∀ (k j : ℕ) (t : ℤ) (d : ℤ → Option ℝ) (h : ℤ), j < k →
      dateOf (t + usPerHour * j) = base → hourOf (t + usPerHour * j) = h →
      ((interp_loop_pure m M s noon pm nm base k t d) h).isSome = true := by
  intro k
  induction k with
  | zero => intro j t d h hj; omega
  | succ k ih =>
    intro j t d h hj hdate hhour
    rw [interp_loop_pure]
    match j with
    | 0 =>
      simp only [Nat.cast_zero, mul_zero, add_zero] at hdate hhour
      apply interp_loop_pure_isSome_mono
      rw [if_pos hdate, ← hhour, Function.update_apply, if_pos rfl]
      rfl
    | j + 1 =>
      have harith : t + usPerHour * ((j : ℕ) + 1 : ℕ) =
          (t + usPerHour) + usPerHour * (j : ℕ) := by push_cast; ring
      rw [harith] at hdate hhour
      exact ih j (t + usPerHour) _ h (by omega) hdate hhour

theorem interp_loop_pure_eq_some (m M : ℝ) (s noon : ℤ) (pm nm : ℝ)
    (base : ℤ) :
    ∀ (k : ℕ) (t : ℤ) (d : ℤ → Option ℝ) (h : ℤ) (v : ℝ),
      (interp_loop_pure m M s noon pm nm base k t d) h = some v →
      d h = some v ∨
        ∃ j < k, dateOf (t + usPerHour * j) = base ∧
          hourOf (t + usPerHour * j) = h ∧
          v = temp_at m M s noon pm nm (t + usPerHour * j) := by
  intro k
  induction k with
  | zero => intro t d h v hv; exact Or.inl hv
  | succ k ih =>
    intro t d h v hv
    rw [interp_loop_pure] at hv
    rcases ih (t + usPerHour) _ h v hv with hd | ⟨j, hj, hdate, hhour, hval⟩
    · by_cases hdate : dateOf t = base
      · rw [if_pos hdate, Function.update_apply] at hd
        by_cases hh : h = hourOf t
        · rw [if_pos hh] at hd
          refine Or.inr ⟨0, by omega, ?_, ?_, ?_⟩
          · simpa using hdate
          · simpa using hh.symm
          · simp only [Nat.cast_zero, mul_zero, add_zero]
            exact (Option.some_injective _ hd).symm
        · rw [if_neg hh] at hd
          exact Or.inl hd
      · rw [if_neg hdate] at hd
        exact Or.inl hd
    · refine Or.inr ⟨j + 1, by omega, ?_, ?_, ?_⟩ <;>
        · have harith : t + usPerHour * ((j : ℕ) + 1 : ℕ) =
              (t + usPerHour) + usPerHour * (j : ℕ) := by push_cast; ring
          rw [harith]
          assumption

theorem hourly_temps_dict_eq_some (m M : ℝ) (s noon : ℤ) (pm nm : ℝ)
    (h : ℤ) (v : ℝ)
    (hv : hourly_temps_dict m M s noon pm nm h = some v) :
    ∃ j < num_steps s noon,
      dateOf ((noon + HOURS_AFTER_NOON * usPerHour - usPerDay) + usPerHour * j)
        = dateOf noon ∧
      hourOf ((noon + HOURS_AFTER_NOON * usPerHour - usPerDay) + usPerHour * j)
        = h ∧
      v = temp_at m M s noon pm nm
        ((noon + HOURS_AFTER_NOON * usPerHour - usPerDay) + usPerHour * j) := by
  rcases interp_loop_pure_eq_some m M s noon pm nm (dateOf noon)
      (num_steps s noon) (noon + HOURS_AFTER_NOON * usPerHour - usPerDay)
      (fun _ => none) h v hv with hnone | hfound
  · exact absurd hnone (by simp)
  · exact hfound

theorem hourly_temps_dict_isSome (m M : ℝ) (s noon : ℤ) (pm nm : ℝ) (h : ℤ) :
    ((hourly_temps_dict m M s noon pm nm) h).isSome = hourVisited s noon h := by
  cases hv : hourVisited s noon h with
  | true =>
    rcases (hourVisited_iff s noon h).mp hv with ⟨j, hj, hdate, hhour⟩
    exact interp_loop_pure_isSome m M s noon pm nm (dateOf noon)
      (num_steps s noon) j _ (fun _ => none) h hj hdate hhour
  | false =>
    cases hs : ((hourly_temps_dict m M s noon pm nm) h).isSome with
    | false => rfl
    | true =>
      rcases Option.isSome_iff_exists.mp hs with ⟨v, hveq⟩
      rcases hourly_temps_dict_eq_some m M s noon pm nm h v hveq with
        ⟨j, hj, hdate, hhour, _⟩
      rw [← hv, (hourVisited_iff s noon h).mpr ⟨j, hj, hdate, hhour⟩]

theorem interpolate_eq_filterMap_dict (m M : ℝ) (s noon : ℤ)
    (pm nm : Option ℝ)
    (hA : s - (noon + HOURS_AFTER_NOON * usPerHour - usPerDay) ≠ 0)
    (hB : (noon + HOURS_AFTER_NOON * usPerHour) - s ≠ 0) :
    interpolate_hourly_temperatures m M s noon pm nm =
      .ok ((List.range 24).filterMap (fun (hour : ℕ) =>
        hourly_temps_dict m M s noon (pm.getD M) (nm.getD m) (hour : ℤ))) := by
  rw [interpolate_hourly_temperatures,
    interp_loop_eq_pure m M s noon (pm.getD M) (nm.getD m) (dateOf noon) hA hB]
  rfl

theorem temp_at_exc_ok_val (m M : ℝ) (s noon : ℤ) (pm nm : ℝ) (t : ℤ) (v : ℝ)
    (h : temp_at_exc m M s noon pm nm t = .ok v) :
    v = temp_at m M s noon pm nm t := by
  simp only [temp_at_exc, temp_at] at h ⊢
  split_ifs at h ⊢ <;> first
    | exact Except.noConfusion h
    | (injection h with h; exact h.symm)

theorem interp_loop_ok_eq_pure (m M : ℝ) (s noon : ℤ) (pm nm : ℝ)
    (base : ℤ) :
    ∀ (k : ℕ) (t : ℤ) (d d' : ℤ → Option ℝ),
      interp_loop m M s noon pm nm base k t d = .ok d' →
      d' = interp_loop_pure m M s noon pm nm base k t d := by
  intro k
  induction k with
  | zero =>
    intro t d d' h
    rw [interp_loop] at h
    rw [interp_loop_pure]
    injection h with h
    exact h.symm
  | succ k ih =>
    intro t d d' h
    rw [interp_loop] at h
    rw [interp_loop_pure]
    cases hte : temp_at_exc m M s noon pm nm t with
    | error e =>
      rw [hte] at h
      exact Except.noConfusion h
    | ok v =>
      rw [hte] at h
      rw [← temp_at_exc_ok_val m M s noon pm nm t v hte]
      exact ih (t + usPerHour) _ d' h

/-- Whenever the interpolation returns a profile at all — no assumption on
phase durations — that profile is the hour-0-to-23 compaction of the
`hourly_temps` dictionary. -/
theorem interpolate_ok_eq (m M : ℝ) (s noon : ℤ) (pm nm : Option ℝ)
    (l : List ℝ)
    (hok : interpolate_hourly_temperatures m M s noon pm nm = .ok l) :
    l = (List.range 24).filterMap (fun (hour : ℕ) =>
      hourly_temps_dict m M s noon (pm.getD M) (nm.getD m) (hour : ℤ)) := by
  rw [interpolate_hourly_temperatures] at hok
  cases hloop : interp_loop m M s noon (pm.getD M) (nm.getD m) (dateOf noon)
      (num_steps s noon) (noon + HOURS_AFTER_NOON * usPerHour - usPerDay)
      (fun _ => none) with
  | error e =>
    rw [hloop] at hok
    exact Except.noConfusion hok
  | ok d =>
    rw [hloop] at hok
    injection hok with hl
    rw [← hl, interp_loop_ok_eq_pure m M s noon (pm.getD M) (nm.getD m)
      (dateOf noon) (num_steps s noon)
      (noon + HOURS_AFTER_NOON * usPerHour - usPerDay) (fun _ => none) d hloop]
    rfl

theorem length_filterMap_eq_length_filter {α β : Type} (f : α → Option β) :
    ∀ l : List α, (l.filterMap f).length = (l.filter (fun a => (f a).isSome)).length := by
  intro l
  induction l with
  | nil => rfl
  | cons a l ih =>
    rw [List.filterMap_cons, List.filter_cons]
    cases hfa : f a with
    | none => simpa [hfa] using ih
    | some b => simpa [hfa] using ih

theorem all_hours_visited (s noon : ℤ) (h : ℕ) (hh : h < 24)
    (hsd : dateOf s = dateOf noon)
    (hlt : noon < usPerDay * dateOf noon + 23 * usPerHour) :
    ∃ k < num_steps s noon,
      dateOf ((noon + HOURS_AFTER_NOON * usPerHour - usPerDay) + usPerHour * k)
        = dateOf noon ∧
      hourOf ((noon + HOURS_AFTER_NOON * usPerHour - usPerDay) + usPerHour * k)
        = h := by
  refine ⟨((usPerDay * dateOf noon + usPerHour * h
      - (noon + HOURS_AFTER_NOON * usPerHour - usPerDay)
      + (usPerHour - 1)).toNat) / 3600000000, ?_, ?_, ?_⟩ <;>
    · simp only [num_steps, dateOf, hourOf, usPerDay, usPerHour, HOURS_AFTER_NOON] at *
      omega

/-- A cosine/sine ease `a - (a - b) * c` with factor `c ∈ [0, 1]` stays
between its two endpoint temperatures. -/
theorem ease_mem (a b c : ℝ) (h0 : 0 ≤ c) (h1 : c ≤ 1) :
    min a b ≤ a - (a - b) * c ∧ a - (a - b) * c ≤ max a b := by
  constructor
  · nlinarith [mul_nonneg (sub_nonneg.mpr (min_le_left a b)) (sub_nonneg.mpr h1),
      mul_nonneg (sub_nonneg.mpr (min_le_right a b)) h0]
  · nlinarith [mul_nonneg (sub_nonneg.mpr (le_max_left a b)) (sub_nonneg.mpr h1),
      mul_nonneg (sub_nonneg.mpr (le_max_right a b)) h0]

/-- Every temperature the model computes lies between the least and the
greatest of the four anchor temperatures, provided Phase 2 has positive
duration (`sunrise < noon + 2h`); Phases 1 and 3 are cosine eases, bounded
for any fraction, and Phase 2 is only entered with a fraction in `[0, 1]`. -/
theorem temp_at_mem (m M : ℝ) (s noon : ℤ) (pm nm : ℝ) (t : ℤ)
    (hB : 0 < (noon + HOURS_AFTER_NOON * usPerHour) - s) :
    min (min (min m M) pm) nm ≤ temp_at m M s noon pm nm t ∧
      temp_at m M s noon pm nm t ≤ max (max (max m M) pm) nm := by
  have hm : min (min (min m M) pm) nm ≤ m :=
    le_trans (le_trans (min_le_left _ _) (min_le_left _ _)) (min_le_left _ _)
  have hM : min (min (min m M) pm) nm ≤ M :=
    le_trans (le_trans (min_le_left _ _) (min_le_left _ _)) (min_le_right _ _)
  have hpm : min (min (min m M) pm) nm ≤ pm :=
    le_trans (min_le_left _ _) (min_le_right _ _)
  have hnm : min (min (min m M) pm) nm ≤ nm := min_le_right _ _
  have hm' : m ≤ max (max (max m M) pm) nm :=
    le_trans (le_trans (le_max_left _ _) (le_max_left _ _)) (le_max_left _ _)
  have hM' : M ≤ max (max (max m M) pm) nm :=
    le_trans (le_trans (le_max_right _ _) (le_max_left _ _)) (le_max_left _ _)
  have hpm' : pm ≤ max (max (max m M) pm) nm :=
    le_trans (le_max_right _ _) (le_max_left _ _)
  have hnm' : nm ≤ max (max (max m M) pm) nm := le_max_right _ _
  simp only [temp_at]
  split_ifs with h1 h2
  · -- Phase 1: cosine ease between `pm` and `m`
    have hc0 : (0:ℝ) ≤ (1 - Real.cos (Real.pi *
        (((t - (noon + HOURS_AFTER_NOON * usPerHour - usPerDay) : ℤ) : ℝ) /
         ((s - (noon + HOURS_AFTER_NOON * usPerHour - usPerDay) : ℤ) : ℝ)))) / 2 := by
      have := Real.cos_le_one (Real.pi *
        (((t - (noon + HOURS_AFTER_NOON * usPerHour - usPerDay) : ℤ) : ℝ) /
         ((s - (noon + HOURS_AFTER_NOON * usPerHour - usPerDay) : ℤ) : ℝ)))
      linarith
    have hc1 : (1 - Real.cos (Real.pi *
        (((t - (noon + HOURS_AFTER_NOON * usPerHour - usPerDay) : ℤ) : ℝ) /
         ((s - (noon + HOURS_AFTER_NOON * usPerHour - usPerDay) : ℤ) : ℝ)))) / 2 ≤ 1 := by
      have := Real.neg_one_le_cos (Real.pi *
        (((t - (noon + HOURS_AFTER_NOON * usPerHour - usPerDay) : ℤ) : ℝ) /
         ((s - (noon + HOURS_AFTER_NOON * usPerHour - usPerDay) : ℤ) : ℝ)))
      linarith
    have := ease_mem pm m _ hc0 hc1
    rw [mul_div_assoc]
    exact ⟨le_trans (le_min hpm hm) this.1, le_trans this.2 (max_le hpm' hm')⟩
  · -- Phase 2: sine ease between `m` and `M`, fraction in `[0, 1]`
    have hden : (0:ℝ) < ((noon + HOURS_AFTER_NOON * usPerHour - s : ℤ) : ℝ) := by
      exact_mod_cast hB
    have hf0 : (0:ℝ) ≤ ((t - s : ℤ) : ℝ) /
        (((noon + HOURS_AFTER_NOON * usPerHour) - s : ℤ) : ℝ) := by
      apply div_nonneg _ (le_of_lt (by exact_mod_cast hB))
      exact_mod_cast Int.sub_nonneg.mpr (not_lt.mp h1)
    have hf1 : ((t - s : ℤ) : ℝ) /
        (((noon + HOURS_AFTER_NOON * usPerHour) - s : ℤ) : ℝ) ≤ 1 := by
      rw [div_le_one (by exact_mod_cast hB)]
      exact_mod_cast Int.sub_le_sub_right h2 s
    have hs0 : 0 ≤ Real.sin (Real.pi / 2 *
        (((t - s : ℤ) : ℝ) / (((noon + HOURS_AFTER_NOON * usPerHour) - s : ℤ) : ℝ))) := by
      apply Real.sin_nonneg_of_nonneg_of_le_pi
      · positivity
      · have hpi := Real.pi_pos
        nlinarith
    have hs1 : Real.sin (Real.pi / 2 *
        (((t - s : ℤ) : ℝ) / (((noon + HOURS_AFTER_NOON * usPerHour) - s : ℤ) : ℝ))) ≤ 1 :=
      Real.sin_le_one _
    have := ease_mem m M _ hs0 hs1
    constructor
    · refine le_trans (le_min hm hM) (le_of_le_of_eq this.1 ?_)
      ring
    · refine le_trans (le_of_eq_of_le ?_ this.2) (max_le hm' hM')
      ring
  · -- Phase 3: cosine ease between `M` and `nm`
    have hc0 : (0:ℝ) ≤ (1 - Real.cos (Real.pi *
        (((t - (noon + HOURS_AFTER_NOON * usPerHour) : ℤ) : ℝ) /
         (((s + usPerDay) - (noon + HOURS_AFTER_NOON * usPerHour) : ℤ) : ℝ)))) / 2 := by
      have := Real.cos_le_one (Real.pi *
        (((t - (noon + HOURS_AFTER_NOON * usPerHour) : ℤ) : ℝ) /
         (((s + usPerDay) - (noon + HOURS_AFTER_NOON * usPerHour) : ℤ) : ℝ)))
      linarith
    have hc1 : (1 - Real.cos (Real.pi *
        (((t - (noon + HOURS_AFTER_NOON * usPerHour) : ℤ) : ℝ) /
         (((s + usPerDay) - (noon + HOURS_AFTER_NOON * usPerHour) : ℤ) : ℝ)))) / 2 ≤ 1 := by
      have := Real.neg_one_le_cos (Real.pi *
        (((t - (noon + HOURS_AFTER_NOON * usPerHour) : ℤ) : ℝ) /
         (((s + usPerDay) - (noon + HOURS_AFTER_NOON * usPerHour) : ℤ) : ℝ)))
      linarith
    have := ease_mem M nm _ hc0 hc1
    rw [mul_div_assoc]
    exact ⟨le_trans (le_min hM hnm) this.1, le_trans this.2 (max_le hM' hnm')⟩

/-- **C1** (amended).  With sunrise strictly before noon, the peak less than
a day after sunrise, sunrise on the target date, and noon before 23:00 local
time, `interpolate_hourly_temperatures` returns exactly one temperature per
hour 0–23 of the target date and every returned value lies in the closed
interval spanned by the four anchor temperatures (hence in the claim's
ε-inflated interval for any ε ≥ 0). -/
theorem interpolate_complete_and_bounded (m M pm nm : ℝ) (s noon : ℤ)
    (h1 : s < noon) (h2 : noon + HOURS_AFTER_NOON * usPerHour < s + usPerDay)
    (h3 : dateOf s = dateOf noon)
    (h4 : noon < usPerDay * dateOf noon + 23 * usPerHour) :
    ∃ l, interpolate_hourly_temperatures m M s noon (some pm) (some nm)
        = .ok l ∧
      l.length = 24 ∧
      ∀ x ∈ l, min (min (min m M) pm) nm ≤ x ∧
        x ≤ max (max (max m M) pm) nm := by
  have hA : s - (noon + HOURS_AFTER_NOON * usPerHour - usPerDay) ≠ 0 := by
    simp only [HOURS_AFTER_NOON, usPerHour, usPerDay] at h2 ⊢
    omega
  have hB : (noon + HOURS_AFTER_NOON * usPerHour) - s ≠ 0 := by
    simp only [HOURS_AFTER_NOON, usPerHour] at h1 ⊢
    omega
  have hBpos : 0 < (noon + HOURS_AFTER_NOON * usPerHour) - s := by
    simp only [HOURS_AFTER_NOON, usPerHour] at h1 ⊢
    omega
  have heq : interpolate_hourly_temperatures m M s noon (some pm) (some nm)
      = .ok ((List.range 24).filterMap (fun (hour : ℕ) =>
          hourly_temps_dict m M s noon pm nm (hour : ℤ))) := by
    exact interpolate_eq_filterMap_dict m M s noon (some pm) (some nm) hA hB
  refine ⟨_, heq, ?_, ?_⟩
  · rw [length_filterMap_eq_length_filter]
    have hall : ∀ a ∈ List.range 24,
        ((hourly_temps_dict m M s noon pm nm (a : ℤ)).isSome = true) := by
      intro a ha
      rw [hourly_temps_dict_isSome, hourVisited_iff]
      exact all_hours_visited s noon a (List.mem_range.mp ha) h3 h4
    rw [List.filter_eq_self.mpr hall, List.length_range]
  · intro x hx
    rcases List.mem_filterMap.mp hx with ⟨a, _, hdict⟩
    rcases hourly_temps_dict_eq_some m M s noon pm nm (a : ℤ) x hdict with
      ⟨j, _, _, _, hval⟩
    rw [hval]
    exact temp_at_mem m M s noon pm nm _ hBpos

/-- Witness for C1's theorem at the spec's end-to-end scenario temperatures
(min 15, max 28, sunrise 06:00, noon 12:00, neighbours 27 and 14). -/
theorem interpolate_complete_and_bounded_witness :
    ∃ l, interpolate_hourly_temperatures 15 28 21600000000 43200000000
        (some 27) (some 14) = .ok l ∧
      l.length = 24 ∧
      ∀ x ∈ l, min (min (min 15 28) 27) 14 ≤ x ∧
        x ≤ max (max (max (15:ℝ) 28) 27) 14 :=
  interpolate_complete_and_bounded 15 28 27 14 21600000000 43200000000
    (by decide) (by decide) (by decide) (by decide)

theorem interpolate_length (m M : ℝ) (s noon : ℤ) (pm nm : Option ℝ)
    (hA : s - (noon + HOURS_AFTER_NOON * usPerHour - usPerDay) ≠ 0)
    (hB : (noon + HOURS_AFTER_NOON * usPerHour) - s ≠ 0) :
    Except.map List.length (interpolate_hourly_temperatures m M s noon pm nm) =
      .ok (((List.range 24).filter
        (fun (a : ℕ) => hourVisited s noon (a : ℤ))).length) := by
  rw [interpolate_eq_filterMap_dict m M s noon pm nm hA hB]
  simp only [Except.map]
  congr 1
  rw [length_filterMap_eq_length_filter]
  exact congrArg List.length (List.filter_congr
    (fun a _ => hourly_temps_dict_isSome m M s noon (pm.getD M) (nm.getD m) (a : ℤ)))

/-- **C1** counterexample.  The input sunrise 22:30, noon 23:00 (same day)
satisfies the claim's precondition (`sunrise < noon` and
`noon + 2h < sunrise + 24h`) yet the profile has only 23 values: the window
starts at 01:00 of the target day, so hour 0 is never visited. -/
theorem interpolate_claimed_precondition_not_complete :
    ((81000000000 : ℤ) < 82800000000 ∧
      (82800000000 : ℤ) + HOURS_AFTER_NOON * usPerHour
        < 81000000000 + usPerDay) ∧
    Except.map List.length
      (interpolate_hourly_temperatures 0 10 81000000000 82800000000
        (some 10) (some 0)) = .ok 23 := by
  refine ⟨⟨by decide, by decide⟩, ?_⟩
  rw [interpolate_length 0 10 81000000000 82800000000 (some 10) (some 0)
    (by decide) (by decide)]
  exact congrArg Except.ok (by decide)

/-- **C2** (amended).  Whenever the interpolation returns a profile at all —
including under degenerate solar timing where fewer than 24 hours are
populated, and with no assumption on phase durations — the returned list is
the compaction, in increasing hour order, of the hours 0–23 present in the
`hourly_temps` dictionary (so the entry at index `h` is the hour-`h`
temperature exactly when all 24 hours are populated), and every retained
value is a temperature computed at a loop instant of the target calendar
date at that hour. -/
theorem interpolate_retained_hours (m M pm nm : ℝ) (s noon : ℤ) (l : List ℝ)
    (hok : interpolate_hourly_temperatures m M s noon (some pm) (some nm)
      = .ok l) :
    l = (List.range 24).filterMap (fun (hour : ℕ) =>
        hourly_temps_dict m M s noon pm nm (hour : ℤ)) ∧
    ∀ h v, hourly_temps_dict m M s noon pm nm h = some v →
      ∃ j < num_steps s noon,
        dateOf ((noon + HOURS_AFTER_NOON * usPerHour - usPerDay) + usPerHour * j)
          = dateOf noon ∧
        hourOf ((noon + HOURS_AFTER_NOON * usPerHour - usPerDay) + usPerHour * j)
          = h ∧
        v = temp_at m M s noon pm nm
          ((noon + HOURS_AFTER_NOON * usPerHour - usPerDay) + usPerHour * j) :=
  ⟨interpolate_ok_eq m M s noon (some pm) (some nm) l hok,
    fun h v hv => hourly_temps_dict_eq_some m M s noon pm nm h v hv⟩

/-- Witness for C2's theorem at the degenerate input sunrise 22:30, noon
23:00, where only hours 1–23 are populated and the compaction shifts. -/
theorem interpolate_retained_hours_witness :
    ((List.range 24).filterMap (fun (hour : ℕ) =>
        hourly_temps_dict 0 10 81000000000 82800000000 10 0 (hour : ℤ)) =
      (List.range 24).filterMap (fun (hour : ℕ) =>
        hourly_temps_dict 0 10 81000000000 82800000000 10 0 (hour : ℤ))) ∧
    ∀ h v, hourly_temps_dict 0 10 81000000000 82800000000 10 0 h = some v →
      ∃ j < num_steps 81000000000 82800000000,
        dateOf ((82800000000 + HOURS_AFTER_NOON * usPerHour - usPerDay)
          + usPerHour * j) = dateOf 82800000000 ∧
        hourOf ((82800000000 + HOURS_AFTER_NOON * usPerHour - usPerDay)
          + usPerHour * j) = h ∧
        v = temp_at 0 10 81000000000 82800000000 10 0
          ((82800000000 + HOURS_AFTER_NOON * usPerHour - usPerDay)
            + usPerHour * j) :=
  interpolate_retained_hours 0 10 10 0 81000000000 82800000000 _
    (interpolate_eq_filterMap_dict 0 10 81000000000 82800000000
      (some 10) (some 0) (by decide) (by decide))

/-- **C2** counterexample.  At sunrise 22:30, noon 23:00 the profile has 23
entries while hour 0 was never computed and hour 23 was: the retained
hour-23 temperature therefore cannot sit at list index 23 (the list has no
index 23), i.e. entries do not occupy the slot of their hour index. -/
theorem interpolate_entries_shift_under_missing_hours :
    Except.map List.length
      (interpolate_hourly_temperatures 0 10 81000000000 82800000000 none none)
        = .ok 23 ∧
    hourly_temps_dict 0 10 81000000000 82800000000 10 0 0 = none ∧
    (hourly_temps_dict 0 10 81000000000 82800000000 10 0 23).isSome = true := by
  refine ⟨?_, ?_, ?_⟩
  · rw [interpolate_length 0 10 81000000000 82800000000 none none
      (by decide) (by decide)]
    exact congrArg Except.ok (by decide)
  · cases hd : hourly_temps_dict 0 10 81000000000 82800000000 10 0 0 with
    | none => rfl
    | some v =>
      rcases hourly_temps_dict_eq_some 0 10 81000000000 82800000000 10 0 0 v hd
        with ⟨j, hj, hdate, hhour, _⟩
      have hv : hourVisited 81000000000 82800000000 0 = true :=
        (hourVisited_iff 81000000000 82800000000 0).mpr ⟨j, hj, hdate, hhour⟩
      exact absurd hv (by decide)
  · rw [hourly_temps_dict_isSome]
    decide

/-- **C3**.  The per-instant temperature follows the three-phase model with
peak instant `noon + 2h`, the cases tested in the source's order: before
sunrise, a cosine ease from `prev_max` to `min_temp` over the
previous-peak→sunrise phase; from sunrise to peak, a sine ease from
`min_temp` to `max_temp`; after the peak, a cosine ease from `max_temp` to
`next_min` over the peak→next-sunrise phase.  Each case additionally assumes
the phase has nonzero duration (otherwise the division raises, see C5). -/
theorem temp_at_exc_three_phase (m M pm nm : ℝ) (s noon t : ℤ) :
    (t < s → s - (noon + HOURS_AFTER_NOON * usPerHour - usPerDay) ≠ 0 →
      temp_at_exc m M s noon pm nm t = .ok (pm - (pm - m) *
        (1 - Real.cos (Real.pi *
          (((t - (noon + HOURS_AFTER_NOON * usPerHour - usPerDay) : ℤ) : ℝ) /
           ((s - (noon + HOURS_AFTER_NOON * usPerHour - usPerDay) : ℤ) : ℝ)))) / 2)) ∧
    (¬ t < s → t ≤ noon + HOURS_AFTER_NOON * usPerHour →
      (noon + HOURS_AFTER_NOON * usPerHour) - s ≠ 0 →
      temp_at_exc m M s noon pm nm t = .ok (m + (M - m) *
        Real.sin (Real.pi / 2 *
          (((t - s : ℤ) : ℝ) /
           (((noon + HOURS_AFTER_NOON * usPerHour) - s : ℤ) : ℝ))))) ∧
    (¬ t < s → ¬ t ≤ noon + HOURS_AFTER_NOON * usPerHour →
      (s + usPerDay) - (noon + HOURS_AFTER_NOON * usPerHour) ≠ 0 →
      temp_at_exc m M s noon pm nm t = .ok (M - (M - nm) *
        (1 - Real.cos (Real.pi *
          (((t - (noon + HOURS_AFTER_NOON * usPerHour) : ℤ) : ℝ) /
           (((s + usPerDay) - (noon + HOURS_AFTER_NOON * usPerHour) : ℤ) : ℝ)))) / 2)) := by
  refine ⟨fun h1 hd => ?_, fun h1 h2 hd => ?_, fun h1 h2 hd => ?_⟩
  · simp only [temp_at_exc]
    rw [if_pos h1, if_neg hd]
  · simp only [temp_at_exc]
    rw [if_neg h1, if_pos h2, if_neg hd]
  · simp only [temp_at_exc]
    rw [if_neg h1, if_neg h2, if_neg hd]

/-- Witness for C3's theorem: a Phase 2 instant (10:00, sunrise 06:00, noon
12:00). -/
theorem temp_at_exc_three_phase_witness :
    temp_at_exc 15 28 21600000000 43200000000 27 14 36000000000 =
      .ok (15 + (28 - 15) * Real.sin (Real.pi / 2 *
        (((36000000000 - 21600000000 : ℤ) : ℝ) /
         (((43200000000 + HOURS_AFTER_NOON * usPerHour) - 21600000000 : ℤ) : ℝ)))) :=
  (temp_at_exc_three_phase 15 28 27 14 21600000000 43200000000
    36000000000).2.1 (by decide) (by decide) (by decide)

/-- **C4**.  With sunrise strictly before the peak instant, the model at the
exact sunrise instant yields exactly `min_temp` (the sine ease at fraction 0)
and at the exact peak instant yields exactly `max_temp` (fraction 1). -/
theorem temp_at_exc_boundary_values (m M pm nm : ℝ) (s noon : ℤ)
    (h : s < noon + HOURS_AFTER_NOON * usPerHour) :
    temp_at_exc m M s noon pm nm s = .ok m ∧
    temp_at_exc m M s noon pm nm (noon + HOURS_AFTER_NOON * usPerHour)
      = .ok M := by
  have hne : (noon + HOURS_AFTER_NOON * usPerHour) - s ≠ 0 :=
    sub_ne_zero.mpr (ne_of_gt h)
  constructor
  · simp only [temp_at_exc]
    rw [if_neg (lt_irrefl s), if_pos (le_of_lt h), if_neg hne]
    congr 1
    simp
  · simp only [temp_at_exc]
    rw [if_neg (not_lt.mpr (le_of_lt h)), if_pos le_rfl, if_neg hne]
    congr 1
    have hden : (((noon + HOURS_AFTER_NOON * usPerHour) - s : ℤ) : ℝ) ≠ 0 :=
      Int.cast_ne_zero.mpr hne
    rw [div_self hden, mul_one, Real.sin_pi_div_two]
    ring

/-- Witness for C4's theorem: sunrise 06:00, noon 12:00, min 15, max 28. -/
theorem temp_at_exc_boundary_values_witness :
    temp_at_exc 15 28 21600000000 43200000000 27 14 21600000000 = .ok 15 ∧
    temp_at_exc 15 28 21600000000 43200000000 27 14
      (43200000000 + HOURS_AFTER_NOON * usPerHour) = .ok 28 :=
  temp_at_exc_boundary_values 15 28 27 14 21600000000 43200000000 (by decide)

theorem interp_loop_error (m M : ℝ) (s noon : ℤ) (pm nm : ℝ) (base : ℤ) :
    ∀ (j k : ℕ) (t : ℤ) (d : ℤ → Option ℝ), j < k →
      (∀ i < j, ∃ v, temp_at_exc m M s noon pm nm
        (t + usPerHour * i) = .ok v) →
      temp_at_exc m M s noon pm nm (t + usPerHour * j) = .error () →
      interp_loop m M s noon pm nm base k t d = .error () := by
  intro j
  induction j with
  | zero =>
    intro k t d hk hok herr
    match k, hk with
    | k + 1, _ =>
      rw [interp_loop]
      simp only [Nat.cast_zero, mul_zero, add_zero] at herr
      rw [herr]
  | succ j ih =>
    intro k t d hk hok herr
    match k, hk with
    | k + 1, _ =>
      rw [interp_loop]
      rcases hok 0 (by omega) with ⟨v, hv⟩
      simp only [Nat.cast_zero, mul_zero, add_zero] at hv
      rw [hv]
      refine ih k (t + usPerHour) _ (by omega) (fun i hi => ?_) ?_
      · rcases hok (i + 1) (by omega) with ⟨w, hw⟩
        refine ⟨w, ?_⟩
        rw [show (t + usPerHour) + usPerHour * (i : ℕ)
            = t + usPerHour * ((i : ℕ) + 1 : ℕ) by push_cast; ring]
        exact hw
      · rw [show (t + usPerHour) + usPerHour * (j : ℕ)
            = t + usPerHour * ((j : ℕ) + 1 : ℕ) by push_cast; ring]
        exact herr

/-- When sunrise equals the peak instant (`noon + 2h`), Phase 2 has zero
duration; the hourly walk hits that very instant (step 24 from the window
start) and the Phase 2 division raises `ZeroDivisionError`: the function
fails instead of returning a result.  The steps before it all fall in
Phase 1, whose denominator is then a full day, so the error at step 24 is
always reached. -/
theorem interpolate_sunrise_eq_peak_error (m M : ℝ) (noon : ℤ)
    (pm nm : Option ℝ) :
    interpolate_hourly_temperatures m M (noon + HOURS_AFTER_NOON * usPerHour)
      noon pm nm = .error () := by
  have ht24 : (noon + HOURS_AFTER_NOON * usPerHour - usPerDay)
      + usPerHour * ((24 : ℕ) : ℤ) = noon + HOURS_AFTER_NOON * usPerHour := by
    simp only [usPerHour, usPerDay]
    norm_num
  have herr : temp_at_exc m M (noon + HOURS_AFTER_NOON * usPerHour) noon
      (pm.getD M) (nm.getD m)
      ((noon + HOURS_AFTER_NOON * usPerHour - usPerDay)
        + usPerHour * ((24 : ℕ) : ℤ)) = .error () := by
    rw [ht24]
    simp only [temp_at_exc]
    rw [if_neg (lt_irrefl _), if_pos le_rfl, if_pos (sub_self _)]
  have hok : ∀ i : ℕ, i < 24 → ∃ v, temp_at_exc m M
      (noon + HOURS_AFTER_NOON * usPerHour) noon (pm.getD M) (nm.getD m)
      ((noon + HOURS_AFTER_NOON * usPerHour - usPerDay) + usPerHour * (i : ℤ))
        = .ok v := by
    intro i hi
    simp only [temp_at_exc]
    rw [if_pos ?c1, if_neg ?c2]
    · exact ⟨_, rfl⟩
    case c1 => simp only [usPerHour, usPerDay, HOURS_AFTER_NOON]; omega
    case c2 => simp only [usPerHour, usPerDay, HOURS_AFTER_NOON]; omega
  have hk : 24 < num_steps (noon + HOURS_AFTER_NOON * usPerHour) noon := by
    simp only [num_steps, usPerHour, usPerDay, HOURS_AFTER_NOON]
    omega
  rw [interpolate_hourly_temperatures,
    interp_loop_error m M (noon + HOURS_AFTER_NOON * usPerHour) noon
      (pm.getD M) (nm.getD m) (dateOf noon) 24 (num_steps _ noon) _ _ hk hok herr]

/-- **C5** (amended).  `interpolate_hourly_temperatures` does not guard
against division by zero: whenever sunrise equals the peak instant
(`noon + 2h`, a zero-duration Phase 2), evaluation raises
`ZeroDivisionError` instead of returning a result.  (A zero-duration
Phase 1/3, `sunrise = noon − 22h`, never evaluates its division because the
guarding branch conditions exclude those instants, so only Phase 2 can
actually divide by zero.) -/
theorem interpolate_zero_phase2_raises (m M : ℝ) (noon : ℤ)
    (pm nm : Option ℝ) :
    interpolate_hourly_temperatures m M (noon + HOURS_AFTER_NOON * usPerHour)
      noon pm nm = .error () :=
  interpolate_sunrise_eq_peak_error m M noon pm nm

/-- **C5** counterexample.  Sunrise 14:00, noon 12:00 is an input with a
zero-duration phase on which the function fails instead of returning a
result. -/
theorem interpolate_zero_duration_fails :
    interpolate_hourly_temperatures 0 10 50400000000 43200000000 none none
      = .error () := by
  rw [show (50400000000 : ℤ) = 43200000000 + HOURS_AFTER_NOON * usPerHour
    by decide]
  exact interpolate_sunrise_eq_peak_error 0 10 43200000000 none none

/-- **C6**.  Omitting `prev_day_max_temp` is exactly passing the day's own
`max_temp`; omitting `next_day_min_temp` is exactly passing the day's own
`min_temp` (lines 100–106 of the source). -/
theorem interpolate_missing_neighbor_fallback (m M : ℝ) (s noon : ℤ)
    (o : Option ℝ) :
    (interpolate_hourly_temperatures m M s noon none o =
      interpolate_hourly_temperatures m M s noon (some M) o) ∧
    (interpolate_hourly_temperatures m M s noon o none =
      interpolate_hourly_temperatures m M s noon o (some m)) :=
  ⟨rfl, rfl⟩

/-- **C7**.  The interpolation is a pure function of its six arguments: two
calls with identical arguments return identical outputs (in this embedding
the function reads no other state, so the result depends on the argument
tuple alone). -/
theorem interpolate_deterministic (m M m' M' : ℝ) (s noon s' noon' : ℤ)
    (pm nm pm' nm' : Option ℝ)
    (h : (m, M, s, noon, pm, nm) = (m', M', s', noon', pm', nm')) :
    interpolate_hourly_temperatures m M s noon pm nm =
      interpolate_hourly_temperatures m' M' s' noon' pm' nm' := by
  cases h
  rfl

/-- Witness for C7's theorem at the end-to-end scenario input. -/
theorem interpolate_deterministic_witness :
    interpolate_hourly_temperatures 15 28 21600000000 43200000000 none none =
      interpolate_hourly_temperatures 15 28 21600000000 43200000000 none none :=
  interpolate_deterministic 15 28 15 28 21600000000 43200000000
    21600000000 43200000000 none none none none rfl

/-! ### Per-station driver, worker, and aggregation -/

/-- One row of a station's daily series: `date` (day number of the canonical
reference calendar), `tasmin`, `tasmax`. -/
structure DayRecord where
  date : ℤ
  tasmin : ℝ
  tasmax : ℝ

/-- The per-date work of `process_station_worker` (lines 242–271): look up
the neighbouring days' extremes (absence is not an error), compute solar
times (fallible collaborator), then interpolate (fallible, see C5).  Any
exception from the `try` block of lines 259–278 is caught by the per-date
handler. -/
noncomputable def process_date (solar : ℤ → Except Unit (ℤ × ℤ))
    (station_data : List DayRecord) (current_day : DayRecord) :
    Except Unit (List ℝ) := do
  let prev_day_max_temp :=
    (station_data.find? (fun r => r.date = current_day.date - 1)).map
      (fun r => r.tasmax)
  let next_day_min_temp :=
    (station_data.find? (fun r => r.date = current_day.date + 1)).map
      (fun r => r.tasmin)
  let (sunrise_dt, noon_dt) ← solar current_day.date
  interpolate_hourly_temperatures current_day.tasmin current_day.tasmax
    sunrise_dt noon_dt prev_day_max_temp next_day_min_temp

/-- The station's dates, unique and in ascending order (line 224's
`unique()` and line 232's `sorted(...)`). -/
def station_dates (station_data : List DayRecord) : List ℤ :=
  ((station_data.map (fun r => r.date)).dedup).insertionSort (fun a b => a ≤ b)

/-- The per-date loop of `process_station_worker` (lines 229–278): walk the
sorted dates; a date whose row is missing, or whose computation raises, is
skipped (`continue`) and the remaining dates are still processed. -/
noncomputable def process_station_dates (solar : ℤ → Except Unit (ℤ × ℤ))
    (station_data : List DayRecord) : List (ℤ × List ℝ) :=
  (station_dates station_data).foldl (fun station_results date =>
    match station_data.find? (fun r => r.date = date) with
    | none => station_results
    | some current_day =>
      match process_date solar station_data current_day with
      | .error _ => station_results
      | .ok hourly_temps => station_results ++ [(date, hourly_temps)]) []

/-- The outcome the worker records for one date: `none` when the date's row
is missing or its computation raised (the date is skipped), otherwise the
hourly profile. -/
noncomputable def day_outcome (solar : ℤ → Except Unit (ℤ × ℤ))
    (station_data : List DayRecord) (date : ℤ) : Option (List ℝ) :=
  (station_data.find? (fun r => r.date = date)).bind
    (fun current_day => (process_date solar station_data current_day).toOption)

/-- **C8**.  The per-station driver's result is exactly the succeeded dates
in order: a failure for a single date is absorbed at that date (its
`day_outcome` is `none`), every remaining date is still walked, and the
station's mapping has an entry precisely for each date whose computation
succeeded, carrying that date's profile. -/
theorem process_station_dates_succeeded (solar : ℤ → Except Unit (ℤ × ℤ))
    (station_data : List DayRecord) :
    process_station_dates solar station_data =
      (station_dates station_data).filterMap (fun date =>
        (day_outcome solar station_data date).map (fun l => (date, l))) := by
  rw [process_station_dates]
  have key : ∀ (L : List ℤ) (acc : List (ℤ × List ℝ)),
      L.foldl (fun station_results date =>
        match station_data.find? (fun r => r.date = date) with
        | none => station_results
        | some current_day =>
          match process_date solar station_data current_day with
          | .error _ => station_results
          | .ok hourly_temps => station_results ++ [(date, hourly_temps)]) acc =
      acc ++ L.filterMap (fun date =>
        (day_outcome solar station_data date).map (fun l => (date, l))) := by
    intro L
    induction L with
    | nil => intro acc; simp
    | cons d L ih =>
      intro acc
      rw [List.foldl_cons, List.filterMap_cons, ih]
      cases hf : station_data.find? (fun r => r.date = d) with
      | none => simp [day_outcome, hf]
      | some cd =>
        cases hp : process_date solar station_data cd with
        | error e => simp [day_outcome, hf, hp, Except.toOption]
        | ok l => simp [day_outcome, hf, hp, Except.toOption]
  rw [key (station_dates station_data) [], List.nil_append]

/-- A station row of the locations file; `station_id` is `none` when the
`station_id` column is absent from the input CSV (then
`station_row['station_id']` raises `KeyError`). -/
structure StationRow where
  station_id : Option String

/-- One row of a per-date output artifact: a station id and its hourly
temperatures (the `{'station_id': …, 'hour_0': …}` dict of lines 283–287). -/
structure StationDayRow where
  station_id : String
  temps : List ℝ

/-- A terminal message on the result queue: a success carrying the
day→row mapping (lines 297–301) or a failure record (lines 215–220 and
305–310). -/
inductive WorkerResult where
  | success (station_id : String) (daily_results : List (ℤ × StationDayRow))
  | error (station_id : String)

/-- `process_station_worker` (lines 193–310), modelled as the list of
messages the call puts on the result queue.  If the row lacks `station_id`,
line 206 raises `KeyError` and the `except` handler of lines 303–310 itself
raises `NameError` (its f-string reads the unbound `station_id`), so nothing
is reported.  Otherwise a missing data file reports one failure record and
any other run reports one success record; `load_station_data` and the solar
computation are the worker's effectful collaborators, passed as functions. -/
noncomputable def process_station_worker (row : StationRow)
    (load_station_data : String → Except Unit (List DayRecord))
    (solar : ℤ → Except Unit (ℤ × ℤ)) : List WorkerResult :=
  match row.station_id with
  | none => []
  | some station_id =>
    match load_station_data station_id with
    | .error _ => [.error station_id]
    | .ok station_data =>
      [.success station_id ((process_station_dates solar station_data).map
        (fun p => (p.1, ⟨station_id, p.2⟩)))]

/-- The rows one worker result contributes to the aggregate for one calendar
date: a failure contributes nothing (only `status == 'success'` results are
merged, line 367); a success contributes the rows its mapping records under
that date. -/
def rows_for_date (result : WorkerResult) (date : ℤ) : List StationDayRow :=
  match result with
  | .success _ daily_results =>
    (daily_results.filter (fun p => p.1 = date)).map (fun p => p.2)
  | .error _ => []

/-- The coordinator's merge (lines 356–374) at one calendar date: fold over
the worker results in arrival order, appending each successful station's
rows for that date (append-only merge into `daily_results_by_date`). -/
def process_weather_data (results : List WorkerResult) (date : ℤ) :
    List StationDayRow :=
  results.foldl (fun daily_results_by_date result =>
    daily_results_by_date ++ rows_for_date result date) []

/-- **C9** counterexample.  A station row without the `station_id` column is
a possible input on which the worker reports no terminal result at all (the
`except` handler itself raises `NameError` on the unbound `station_id`), so
not every input yields exactly one terminal report. -/
theorem worker_missing_station_id_reports_nothing :
    process_station_worker ⟨none⟩ (fun _ => .error ()) (fun _ => .error ())
      = [] := rfl

/-- **C9** (amended).  Provided the station row carries its `station_id`,
every dispatched station task reports exactly one terminal result — either a
failure record (e.g. for a missing station data file) or a success carrying
its day→rows mapping — and a failure record contributes no rows to the
aggregate for any date. -/
theorem worker_reports_exactly_once (row : StationRow) (sid : String)
    (load_station_data : String → Except Unit (List DayRecord))
    (solar : ℤ → Except Unit (ℤ × ℤ))
    (h : row.station_id = some sid) :
    (process_station_worker row load_station_data solar).length = 1 ∧
    ((process_station_worker row load_station_data solar = [.error sid] ∧
        ∀ date, rows_for_date (.error sid) date = []) ∨
      (∃ daily, process_station_worker row load_station_data solar
        = [.success sid daily])) := by
  simp only [process_station_worker, h]
  cases hl : load_station_data sid with
  | error e => exact ⟨rfl, Or.inl ⟨rfl, fun _ => rfl⟩⟩
  | ok station_data => exact ⟨rfl, Or.inr ⟨_, rfl⟩⟩

/-- Witness for C9's theorem: a worker whose data file is missing reports
exactly one failure record. -/
theorem worker_reports_exactly_once_witness :
    (process_station_worker ⟨some "00044"⟩ (fun _ => .error ())
      (fun _ => .error ())).length = 1 ∧
    ((process_station_worker ⟨some "00044"⟩ (fun _ => .error ())
        (fun _ => .error ()) = [.error "00044"] ∧
        ∀ date, rows_for_date (.error "00044") date = []) ∨
      (∃ daily, process_station_worker ⟨some "00044"⟩ (fun _ => .error ())
        (fun _ => .error ()) = [.success "00044" daily])) :=
  worker_reports_exactly_once ⟨some "00044"⟩ "00044"
    (fun _ => .error ()) (fun _ => .error ()) rfl

/-- **C10**.  At every calendar date, the rows of the final aggregate are a
permutation-invariant function of the multiset of worker results: results
arriving in any order produce the same rows up to order within the date's
artifact, hence the same set of (date, station, profile) triples. -/
theorem aggregate_perm_invariant (results₁ results₂ : List WorkerResult)
    (hperm : results₁.Perm results₂) (date : ℤ) :
    (process_weather_data results₁ date).Perm
      (process_weather_data results₂ date) := by
  have key : ∀ results : List WorkerResult,
      process_weather_data results date =
        results.flatMap (fun result => rows_for_date result date) := by
    intro results
    rw [process_weather_data]
    have step : ∀ (L : List WorkerResult) (acc : List StationDayRow),
        L.foldl (fun daily_results_by_date result =>
          daily_results_by_date ++ rows_for_date result date) acc =
        acc ++ L.flatMap (fun result => rows_for_date result date) := by
      intro L
      induction L with
      | nil => intro acc; simp
      | cons r L ih => intro acc; rw [List.foldl_cons, ih]; simp
    rw [step results [], List.nil_append]
  rw [key results₁, key results₂]
  exact hperm.flatMap_right _

/-- Witness for C10's theorem: one success and one failure arriving in
either order contribute the same rows for date 621 (June 21). -/
theorem aggregate_perm_invariant_witness :
    (process_weather_data
      [.success "00001" [(621, ⟨"00001", [20]⟩)], .error "00002"] 621).Perm
    (process_weather_data
      [.error "00002", .success "00001" [(621, ⟨"00001", [20]⟩)]] 621) :=
  aggregate_perm_invariant _ _
    (List.Perm.swap (.error "00002")
      (.success "00001" [(621, ⟨"00001", [20]⟩)]) []) 621

end ItIsHotNow
